import Mathlib

/-!
# MasterPassword command-line tool (`MasterPassword/C/mpw.c`)

A shallow embedding of `main` of `mpw.c` and of the byte strings it hands to
`crypto_scrypt` and `HMAC_SHA256_Buf`.

Conventions of the embedding.

* A byte is a `Nat` below 256.  A `char *` is the list of bytes found at the
  pointer; the C string it denotes is the part before the first NUL byte
  (`cstr`), the end of the list standing for the terminating NUL.
* A `uint32_t` is a `Nat` reduced modulo `2 ^ 32`.
* A `NULL` pointer is `none`.
* Library routines that are not part of the repository (`crypto_scrypt`,
  `HMAC_SHA256_Buf`, the allocator) are parameters, collected in `Libs`.
* Undefined behaviour of the C program (a read past the end of an object, a
  division by zero) is the status `Status.undefined`.
-/

namespace MPW

/-! ## Bytes and C strings -/

/-- The bytes of an ASCII string literal, without a terminator. -/
def ascii (s : String) : List Nat := s.toList.map Char.toNat

/-- The C string found at a pointer: the bytes before the first NUL. -/
def cstr (mem : List Nat) : List Nat := mem.takeWhile (fun b => b != 0)

/-- The C routine `strlen`. -/
def strlen (mem : List Nat) : Nat := (cstr mem).length

/-- The result of `strcmp(a, b) == 0`. -/
def strcmpEq (a b : List Nat) : Bool := cstr a == cstr b

/-- Conversion of an integer to `uint32_t`. -/
def toUInt32 (v : Int) : Nat := (v % 4294967296).toNat

/-- The four bytes in memory of the `uint32_t` returned by `htonl(x)`: the
big-endian encoding of `x` (whatever the host byte order is). -/
def htonl (x : Nat) : List Nat :=
  let v := x % 4294967296
  [v / 16777216 % 256, v / 65536 % 256, v / 256 % 256, v % 256]

/-- What a `%s` conversion of `asprintf` emits when its argument is
`(const char *) &n` for a four-byte object `n` with the given bytes: the bytes
before the first NUL.  When none of the four bytes is NUL the conversion reads
past the end of the object, which is undefined (`none`). -/
def percent_s_object (obj : List Nat) : Option (List Nat) :=
  if obj.contains 0 then some (cstr obj) else none

/-- The scope string literal that starts both format strings. -/
def scope : List Nat := ascii "com.lyndir.masterpassword"

/-! ## The byte strings handed to scrypt and HMAC (lines 151-153, 166-168) -/

/-- Lines 151-153: `n_userNameLength = htonl(strlen(userName))` and
`asprintf(&masterKeySalt, "com.lyndir.masterpassword%s%s",
(const char *) &n_userNameLength, userName)`.  The result is the buffer
`masterKeySalt`, of `masterKeySaltLength` bytes (the value `asprintf`
returns, i.e. the number of bytes printed). -/
def masterKeySalt (userName : List Nat) : Option (List Nat) :=
  match percent_s_object (htonl (strlen userName)) with
  | none => none
  | some n_userNameLength => some (scope ++ n_userNameLength ++ cstr userName)

/-- Lines 166-168: `n_siteCounter = htonl(siteCounter)`,
`n_siteNameLength = htonl(strlen(siteName))` and
`asprintf(&sitePasswordInfo, "com.lyndir.masterpassword%s%s%s",
(const char *) &n_siteNameLength, siteName, (const char *) &n_siteCounter)`. -/
def sitePasswordInfo (siteName : List Nat) (siteCounter : Nat) : Option (List Nat) :=
  match percent_s_object (htonl (strlen siteName)) with
  | none => none
  | some n_siteNameLength =>
    match percent_s_object (htonl siteCounter) with
    | none => none
    | some n_siteCounter => some (scope ++ n_siteNameLength ++ cstr siteName ++ n_siteCounter)

/-! ## Input conversion (lines 67, 113-118) -/

/-- The C routine `isspace` in the C locale. -/
def isspace (b : Nat) : Bool := b == 32 || (9 ≤ b && b ≤ 13)

/-- The C routine `isdigit`. -/
def isdigit (b : Nat) : Bool := 48 ≤ b && b ≤ 57

/-- The value of a run of decimal digits. -/
def digitsValue (ds : List Nat) : Nat := ds.foldl (fun acc d => acc * 10 + (d - 48)) 0

/-- The C routine `atoi`: leading white space is skipped, an optional sign is
read, then the longest run of decimal digits; no digits give `0`.  The value is
the mathematical integer (C leaves values outside `int` undefined). -/
def atoi (s : List Nat) : Int :=
  match (cstr s).dropWhile isspace with
  | 45 :: rest => - (digitsValue (rest.takeWhile isdigit) : Int)
  | 43 :: rest => (digitsValue (rest.takeWhile isdigit) : Int)
  | rest => (digitsValue (rest.takeWhile isdigit) : Int)

/-- Lines 67 and 113-114: `uint32_t siteCounter = 1;` and
`if (siteCounterString) siteCounter = atoi( siteCounterString );`. -/
def siteCounterOf (siteCounterString : Option (List Nat)) : Nat :=
  match siteCounterString with
  | none => 1
  | some s => toUInt32 (atoi s)

/-! ## Option parsing (lines 63-102) -/

/-- One value returned by `getopt(argc, argv, "u:t:c:")` before it returns
`-1`: one of the three option letters with its `optarg`, or `?` with the
offending `optopt`.  With this option string `getopt` returns nothing else, so
the `default: abort()` branch of the switch is not reachable. -/
inductive GetoptResult where
  | u (optarg : List Nat)
  | t (optarg : List Nat)
  | c (optarg : List Nat)
  | unknown (optopt : Nat)

/-- The three variables the option loop assigns. -/
structure Options where
  userName : Option (List Nat)
  siteTypeString : Option (List Nat)
  siteCounterString : Option (List Nat)

/-- Lines 72-100: the `while`/`switch` over the results of `getopt`.  The
error carries `optopt` of the `?` case, where `main` returns 1. -/
def readOptions : List GetoptResult → Options → Except Nat Options
  | [], o => .ok o
  | .u optarg :: rest, o => readOptions rest { o with userName := some optarg }
  | .t optarg :: rest, o => readOptions rest { o with siteTypeString := some optarg }
  | .c optarg :: rest, o => readOptions rest { o with siteCounterString := some optarg }
  | .unknown optopt :: _, _ => .error optopt

/-! ## The configuration file (lines 132-139) -/

/-- The successive results of `getline` on a stream with the given content:
each line with its newline delimiter, the last one without it when the file
does not end in a newline.  (The reuse of the `line` buffer by `getline` after
`strsep` has advanced the pointer is a matter of memory layout and is not
modelled.) -/
def fileLines : List Nat → List (List Nat)
  | [] => []
  | b :: rest =>
    if b = 10 then [10] :: fileLines rest
    else
      match fileLines rest with
      | [] => [[b]]
      | l :: ls => (b :: l) :: ls

/-- The C routine `strsep(&line, ":")` for a single delimiter: the token
returned (the string up to the first delimiter) and the new value of `line`
(the string after that delimiter, or `NULL` when there is no delimiter). -/
def strsep (line : List Nat) (delim : Nat) : List Nat × Option (List Nat) :=
  let s := cstr line
  match s.dropWhile (fun b => b != delim) with
  | [] => (s, none)
  | _ :: rest => (s.takeWhile (fun b => b != delim), some rest)

/-- Lines 135-139: the loop over the lines of the configuration file; the
result is `masterPassword` after the loop. -/
def readMasterPassword (userName : List Nat) : List (List Nat) → Option (List Nat)
  | [] => none
  | line :: more =>
    if strcmpEq (strsep line 58).1 userName then (strsep line 58).2
    else readMasterPassword userName more

/-! ## Property lists (proplib) -/

/-- A proplib object as far as `main` uses them.  A string holds the bytes of
a C string (none of them NUL); dictionary keys are C strings. -/
inductive PropObject where
  | string (s : List Nat)
  | array (items : List PropObject)
  | dictionary (entries : List (List Nat × PropObject))

/-- The proplib routine `prop_dictionary_get`; `NULL` when the object is not a
dictionary or has no such key. -/
def prop_dictionary_get (pd : Option PropObject) (key : List Nat) : Option PropObject :=
  match pd with
  | some (.dictionary entries) => (entries.find? (fun e => strcmpEq e.1 key)).map (fun e => e.2)
  | _ => none

/-- The proplib routine `prop_array_count`; `0` when the object is not an array. -/
def prop_array_count (pa : Option PropObject) : Nat :=
  match pa with
  | some (.array items) => items.length
  | _ => 0

/-- The proplib routine `prop_array_get`; `NULL` outside the array. -/
def prop_array_get (pa : Option PropObject) (idx : Nat) : Option PropObject :=
  match pa with
  | some (.array items) => items[idx]?
  | _ => none

/-- The proplib routine `prop_string_size`; `0` when the object is not a string. -/
def prop_string_size (ps : Option PropObject) : Nat :=
  match ps with
  | some (.string s) => s.length
  | _ => 0

/-- The proplib routine `prop_string_cstring_nocopy`; `NULL` when the object is
not a string. -/
def prop_string_cstring_nocopy (ps : Option PropObject) : Option (List Nat) :=
  match ps with
  | some (.string s) => some s
  | _ => none

/-! ## The template cipher (lines 191-212) -/

/-- The size of `uint8_t sitePasswordSeed[32]` (line 173). -/
def sitePasswordSeedSize : Nat := 32

/-- A read of `sitePasswordSeed[i]`; outside the array it is undefined. -/
def seedByte (sitePasswordSeed : List Nat) (i : Nat) : Option Nat :=
  if i < sitePasswordSeedSize then sitePasswordSeed[i]? else none

/-- The seed index read in iteration `c` of the loop (line 205). -/
def seedIndex (c : Nat) : Nat := c + 1

/-- Every index of `sitePasswordSeed` read for a cipher of the given size:
index `0` on line 191 and `seedIndex c` for each iteration `c` of the loop. -/
def seedReads (cipherSize : Nat) : List Nat := 0 :: (List.range cipherSize).map seedIndex

/-- Line 191: `prop_array_get(typeCiphers, sitePasswordSeed[0] %
prop_array_count(typeCiphers))`.  The outer `none` is the division by zero of
an empty array. -/
def selectCipher (sitePasswordSeed : List Nat) (typeCiphers : Option PropObject) :
    Option (Option PropObject) :=
  match seedByte sitePasswordSeed 0 with
  | none => none
  | some b =>
    if prop_array_count typeCiphers = 0 then none
    else some (prop_array_get typeCiphers (b % prop_array_count typeCiphers))

/-- Lines 205-208: the character computed in iteration `c`.  `none` is
undefined behaviour: a seed read outside the array, a `NULL` string, a
division by zero. -/
def cipherCharacter (sitePasswordSeed : List Nat) (cipher characterClasses : Option PropObject)
    (c : Nat) : Option Nat :=
  match seedByte sitePasswordSeed (seedIndex c) with
  | none => none
  | some keyByte =>
    match prop_string_cstring_nocopy cipher with
    | none => none
    | some cipherString =>
      match cipherString[c]? with
      | none => none
      | some cipherClass =>
        let cipherClassCharacters := prop_dictionary_get characterClasses [cipherClass, 0]
        if prop_string_size cipherClassCharacters = 0 then none
        else
          match prop_string_cstring_nocopy cipherClassCharacters with
          | none => none
          | some characters => characters[keyByte % prop_string_size cipherClassCharacters]?

/-- Lines 203-212: the `for` loop, with `n` iterations left, the loop variable
`c` and the buffer `sitePassword`. -/
def encodeLoop (sitePasswordSeed : List Nat) (cipher characterClasses : Option PropObject) :
    Nat → Nat → List Nat → Option (List Nat)
  | 0, _, sitePassword => some sitePassword
  | n + 1, c, sitePassword =>
    match cipherCharacter sitePasswordSeed cipher characterClasses c with
    | none => none
    | some character =>
      encodeLoop sitePasswordSeed cipher characterClasses n (c + 1) (sitePassword.set c character)

/-- Lines 201-212: the buffer `sitePassword` after the loop, starting from
`calloc(prop_string_size(cipher) + 1, sizeof(char))`. -/
def encodePassword (sitePasswordSeed : List Nat) (cipher characterClasses : Option PropObject) :
    Option (List Nat) :=
  encodeLoop sitePasswordSeed cipher characterClasses (prop_string_size cipher) 0
    (List.replicate (prop_string_size cipher + 1) 0)

/-! ## The program (lines 60-218) -/

/-- The constant `MP_dkLen` (line 28). -/
def MP_dkLen : Nat := 64

/-- How a run of `main` ends: `return code`, or undefined behaviour. -/
inductive Status where
  | exit (code : Nat)
  | undefined
  deriving DecidableEq

/-- The diagnostics `main` prints on standard error, one constructor for each
`fprintf (stderr, ...)`, with the string or number it formats. -/
inductive Diag where
  | optionError (optopt : Nat)
  | missingUserName
  | missingSiteName
  | invalidSiteCounter (siteCounter : Nat)
  | noConfigPath
  | cannotOpenConfig
  | missingMasterPassword (userName : List Nat)
  | noMasterKey
  | noMasterKeySalt
  | scryptFailed
  | noSiteSeed
  | cannotReadCiphers
  | noCipherForType (siteTypeString : Option (List Nat))
  deriving DecidableEq

/-- The content of the three secret buffers; `none` while a buffer has not
been filled. -/
structure Secrets where
  masterPassword : Option (List Nat) := none
  masterKey : Option (List Nat) := none
  sitePasswordSeed : Option (List Nat) := none
  deriving DecidableEq

/-- What a run of `main` leaves behind: its status, standard output, standard
error, the arguments of each call of `crypto_scrypt` (password, salt) and of
`HMAC_SHA256_Buf` (key, message), and the secret buffers at the return. -/
structure Outcome where
  status : Status
  stdout : List Nat := []
  stderr : List Diag := []
  scryptCalls : List (List Nat × List Nat) := []
  hmacCalls : List (List Nat × List Nat) := []
  secrets : Secrets := {}
  deriving DecidableEq

/-- The two cryptographic library routines.  `crypto_scrypt passwd salt` is
the derived key of `MP_dkLen` bytes for `N = MP_N`, `r = MP_r`, `p = MP_p`, or
`none` when the routine returns a negative value.  `HMAC_SHA256_Buf K msg` is
the 32-byte digest. -/
structure Libs where
  crypto_scrypt : List Nat → List Nat → Option (List Nat)
  HMAC_SHA256_Buf : List Nat → List Nat → List Nat

/-- Everything else `main` reads from its surroundings. -/
structure World where
  /-- Value of `getenv("MP_USERNAME")`. -/
  env_username : Option (List Nat)
  /-- Value of `getenv("MP_SITETYPE")`. -/
  env_sitetype : Option (List Nat)
  /-- Value of `getenv("MP_SITECOUNTER")`. -/
  env_sitecounter : Option (List Nat)
  /-- Successive results of `getopt` until it returns `-1`. -/
  getopt : List GetoptResult
  /-- Value of `argv[optind]` when `optind < argc`. -/
  positional : Option (List Nat)
  /-- Result of `homedir(".mpw")`. -/
  mpwConfigPath : Option (List Nat)
  /-- Content of the file `fopen` opens, or `NULL`. -/
  mpwConfig : Option (List Nat)
  /-- Whether `malloc( MP_dkLen )` succeeds. -/
  malloc_masterKey : Bool
  /-- Whether the first `asprintf` allocates its result. -/
  asprintf_masterKeySalt : Bool
  /-- Whether the second `asprintf` allocates its result. -/
  asprintf_sitePasswordInfo : Bool
  /-- Result of `prop_dictionary_internalize_from_file("ciphers.plist")`. -/
  MPTypes_ciphers : Option PropObject
  /-- Whether `calloc` for `sitePassword` succeeds. -/
  calloc_sitePassword : Bool

/-- Lines 180-217, from the site seed on: catalog lookup, template cipher,
zeroization of the seed and output. -/
def encodeAndPrint (w : World) (siteTypeString : Option (List Nat)) (acc : Outcome)
    (sitePasswordSeed : List Nat) : Outcome :=
  match w.MPTypes_ciphers with
  | none => { acc with status := .exit 1, stderr := [.cannotReadCiphers] }
  | some MPTypes_ciphers =>
    let typeCiphers :=
      prop_dictionary_get
        (prop_dictionary_get (some MPTypes_ciphers) (ascii "[self classNameOfType:type]"))
        (ascii "[self nameOfType:type]")
    match typeCiphers with
    | none => { acc with status := .exit 1, stderr := [.noCipherForType siteTypeString] }
    | some _ =>
      match selectCipher sitePasswordSeed typeCiphers with
      | none => { acc with status := .undefined }
      | some cipher =>
        let characterClasses :=
          prop_dictionary_get (some MPTypes_ciphers) (ascii "MPCharacterClasses")
        if w.calloc_sitePassword then
          match encodePassword sitePasswordSeed cipher characterClasses with
          | none => { acc with status := .undefined }
          | some sitePassword =>
            { acc with
              status := .exit 0
              stdout := cstr sitePassword ++ [10]
              secrets := { acc.secrets with
                sitePasswordSeed := some (List.replicate sitePasswordSeedSize 0) } }
        else { acc with status := .undefined }

/-- Lines 145-178, from the master password on: master key and site seed. -/
def deriveAndPrint (lib : Libs) (w : World) (userName siteName : List Nat) (siteCounter : Nat)
    (siteTypeString : Option (List Nat)) (masterPassword : List Nat) : Outcome :=
  let s0 : Secrets := { masterPassword := some masterPassword }
  if w.malloc_masterKey then
    match masterKeySalt userName with
    | none => { status := .undefined, secrets := s0 }
    | some salt =>
      if w.asprintf_masterKeySalt then
        let calls := [(cstr masterPassword, salt)]
        match lib.crypto_scrypt (cstr masterPassword) salt with
        | none => { status := .exit 1, stderr := [.scryptFailed], scryptCalls := calls, secrets := s0 }
        | some masterKey =>
          let s1 : Secrets := { s0 with masterKey := some masterKey }
          match sitePasswordInfo siteName siteCounter with
          | none => { status := .undefined, scryptCalls := calls, secrets := s1 }
          | some info =>
            if w.asprintf_sitePasswordInfo then
              let sitePasswordSeed := lib.HMAC_SHA256_Buf (masterKey.take MP_dkLen) info
              encodeAndPrint w siteTypeString
                { status := .exit 0
                  scryptCalls := calls
                  hmacCalls := [(masterKey.take MP_dkLen, info)]
                  secrets := { s0 with
                    masterKey := some (List.replicate MP_dkLen 0)
                    sitePasswordSeed := some sitePasswordSeed } }
                sitePasswordSeed
            else { status := .exit 1, stderr := [.noSiteSeed], scryptCalls := calls, secrets := s1 }
      else { status := .exit 1, stderr := [.noMasterKeySalt], secrets := s0 }
  else { status := .exit 1, stderr := [.noMasterKey], secrets := s0 }

/-- The function `main` of `mpw.c`. -/
def main (lib : Libs) (w : World) : Outcome :=
  match readOptions w.getopt ⟨w.env_username, w.env_sitetype, w.env_sitecounter⟩ with
  | .error optopt => { status := .exit 1, stderr := [.optionError optopt] }
  | .ok o =>
    match o.userName with
    | none => { status := .exit 1, stderr := [.missingUserName] }
    | some userName =>
      match w.positional with
      | none => { status := .exit 1, stderr := [.missingSiteName] }
      | some siteName =>
        let siteCounter := siteCounterOf o.siteCounterString
        if siteCounter < 1 then
          { status := .exit 1, stderr := [.invalidSiteCounter siteCounter] }
        else
          match w.mpwConfigPath with
          | none => { status := .exit 1, stderr := [.noConfigPath] }
          | some _ =>
            match w.mpwConfig with
            | none => { status := .exit 1, stderr := [.cannotOpenConfig] }
            | some mpwConfig =>
              match readMasterPassword userName (fileLines mpwConfig) with
              | none => { status := .exit 1, stderr := [.missingMasterPassword userName] }
              | some masterPassword =>
                deriveAndPrint lib w userName siteName siteCounter o.siteTypeString masterPassword

/-! ## Example inputs -/

/-- An example `MPCharacterClasses` dictionary: the classes `V`, `C`, `v`, `c`, `A`,
`a` and `n` of the default catalog. -/
def exampleCharacterClasses : PropObject :=
  .dictionary
    [ (ascii "V", .string (ascii "AEIOU")),
      (ascii "C", .string (ascii "BCDFGHJKLMNPQRSTVWXYZ")),
      (ascii "v", .string (ascii "aeiou")),
      (ascii "c", .string (ascii "bcdfghjklmnpqrstvwxyz")),
      (ascii "A", .string (ascii "AEIOUBCDFGHJKLMNPQRSTVWXYZ")),
      (ascii "a", .string (ascii "AEIOUaeiouBCDFGHJKLMNPQRSTVWXYZbcdfghjklmnpqrstvwxyz")),
      (ascii "n", .string (ascii "0123456789")) ]

/-- Three example templates over the classes `a` and `n`. -/
def exampleTemplates : List (List Nat) := [ascii "aaanaaan", ascii "aannaaan", ascii "aaannaaa"]

/-- An example 32-byte seed: the bytes 5, 12, 19, ... -/
def exampleSeed : List Nat := (List.range 32).map (fun i => 5 + 7 * i)

/-- An example catalog document keyed by a class name and the type names `Long` and
`PIN`, with the character classes. -/
def exampleCiphers : PropObject :=
  .dictionary
    [ (ascii "MPElementGeneratedEntity",
        .dictionary
          [ (ascii "Long", .array [.string (ascii "CvcvnCvcvCvcv"), .string (ascii "CvcvCvcvnCvcv")]),
            (ascii "PIN", .array [.string (ascii "nnnn")]) ]),
      (ascii "MPCharacterClasses", exampleCharacterClasses) ]

/-- An example catalog document whose only template list sits under the two literal
keys that line 186 looks up. -/
def literalKeyCiphers : PropObject :=
  .dictionary
    [ (ascii "[self classNameOfType:type]",
        .dictionary [ (ascii "[self nameOfType:type]", .array [.string (ascii "nnnn")]) ]),
      (ascii "MPCharacterClasses", exampleCharacterClasses) ]

/-- An invocation with the given `getopt` results, positional argument, content of
the configuration file and catalog document, an empty environment and no allocation
failure. -/
def exampleWorld (getopt : List GetoptResult) (positional : Option (List Nat))
    (mpwConfig : List Nat) (MPTypes_ciphers : Option PropObject) : World :=
  { env_username := none
    env_sitetype := none
    env_sitecounter := none
    getopt := getopt
    positional := positional
    mpwConfigPath := some (ascii "/home/user/.mpw")
    mpwConfig := some mpwConfig
    malloc_masterKey := true
    asprintf_masterKeySalt := true
    asprintf_sitePasswordInfo := true
    MPTypes_ciphers := MPTypes_ciphers
    calloc_sitePassword := true }

end MPW

namespace MPW

/-! ## Derivation inputs -/

/-- The memory image of `htonl(x)` starts with a NUL byte whenever `x` is below `2 ^ 24`,
so a `%s` conversion of it prints nothing. -/
theorem percent_s_object_htonl_small (x : Nat) (hx : x < 16777216) :
    percent_s_object (htonl x) = some [] := by
  have h1 : x % 4294967296 = x := Nat.mod_eq_of_lt (by omega)
  have h2 : x / 16777216 = 0 := Nat.div_eq_of_lt hx
  simp [percent_s_object, htonl, cstr, h1, h2]

/-- For a user name shorter than `2 ^ 24` bytes the salt is the scope string followed
directly by the user name. -/
theorem masterKeySalt_small (userName : List Nat) (h : strlen userName < 16777216) :
    masterKeySalt userName = some (scope ++ cstr userName) := by
  simp [masterKeySalt, percent_s_object_htonl_small _ h]

/-- For a site name shorter than `2 ^ 24` bytes and a counter below `2 ^ 24` the HMAC
message is the scope string followed directly by the site name. -/
theorem sitePasswordInfo_small (siteName : List Nat) (siteCounter : Nat)
    (h : strlen siteName < 16777216) (hc : siteCounter < 16777216) :
    sitePasswordInfo siteName siteCounter = some (scope ++ cstr siteName) := by
  simp [sitePasswordInfo, percent_s_object_htonl_small _ h, percent_s_object_htonl_small _ hc]

/-- C1 (the code at the failing input): for the user name `user` the length prefix is
the four bytes 00 00 00 04, and the salt built for scrypt is the 29 bytes
`com.lyndir.masterpassworduser`: the four length bytes are missing, because the `%s`
conversion stops at their leading NUL byte. -/
theorem C1_salt_omits_length_prefix :
    scope.length = 25 ∧
    htonl (strlen (ascii "user")) = [0, 0, 0, 4] ∧
    masterKeySalt (ascii "user") = some (ascii "com.lyndir.masterpassworduser") ∧
    masterKeySalt (ascii "user") ≠ some (scope ++ [0, 0, 0, 4] ++ ascii "user") ∧
    (masterKeySalt (ascii "user")).map List.length = some 29 := by
  decide

/-- C2 (the code at the failing input): for the site name `masterpasswordapp.com` and
counter 1 the message built for HMAC is the 46 bytes
`com.lyndir.masterpasswordmasterpasswordapp.com`: neither the four bytes of the site
name length (00 00 00 15 hex) nor the four bytes of the counter (00 00 00 01) are in
it, because each `%s` conversion stops at the leading NUL byte. -/
theorem C2_info_omits_length_and_counter :
    htonl (strlen (ascii "masterpasswordapp.com")) = [0, 0, 0, 21] ∧
    htonl 1 = [0, 0, 0, 1] ∧
    sitePasswordInfo (ascii "masterpasswordapp.com") 1
      = some (ascii "com.lyndir.masterpasswordmasterpasswordapp.com") ∧
    sitePasswordInfo (ascii "masterpasswordapp.com") 1
      ≠ some (scope ++ [0, 0, 0, 21] ++ ascii "masterpasswordapp.com" ++ [0, 0, 0, 1]) ∧
    (sitePasswordInfo (ascii "masterpasswordapp.com") 1).map List.length = some 46 := by
  decide

/-! ## The template cipher -/

/-- Loop invariant of `encodeLoop`: when every iteration computes a character, the loop
returns, keeps the size of the buffer, stores the character of each iteration `i` at
position `i`, and leaves every other position as it was. -/
theorem encodeLoop_spec (seed : List Nat) (cipher cc : Option PropObject) :
    ∀ (n c : Nat) (buf : List Nat), c + n ≤ buf.length →
      (∀ i, c ≤ i → i < c + n → ∃ ch, cipherCharacter seed cipher cc i = some ch) →
      ∃ out, encodeLoop seed cipher cc n c buf = some out ∧ out.length = buf.length ∧
        (∀ i, c ≤ i → i < c + n → out[i]? = cipherCharacter seed cipher cc i) ∧
        (∀ i, (i < c ∨ c + n ≤ i) → out[i]? = buf[i]?) := by
  intro n
  induction n with
  | zero =>
    intro c buf _ _
    refine ⟨buf, rfl, rfl, ?_, ?_⟩
    · intro i h1 h2; omega
    · intro i _; rfl
  | succ n ih =>
    intro c buf hlen hch
    obtain ⟨ch, hc⟩ := hch c (Nat.le_refl c) (by omega)
    have hlen2 : c + 1 + n ≤ (buf.set c ch).length := by
      rw [List.length_set]; omega
    obtain ⟨out, ho, hl, hin, hout⟩ := ih (c + 1) (buf.set c ch) hlen2
      (fun i h1 h2 => hch i (by omega) (by omega))
    refine ⟨out, ?_, ?_, ?_, ?_⟩
    · simp only [encodeLoop, hc]; exact ho
    · rw [hl, List.length_set]
    · intro i h1 h2
      by_cases hi : i = c
      · subst hi
        rw [hout i (Or.inl (by omega)), hc]
        have hb : i < buf.length := by omega
        simp [List.getElem?_set, hb]
      · exact hin i (by omega) (by omega)
    · intro i hi
      rw [hout i (by omega)]
      have hne : c ≠ i := by omega
      simp [List.getElem?_set, hne]

/-- The C string found in a buffer whose first `n` bytes are not NUL and whose byte
`n` is NUL is the first `n` bytes. -/
theorem cstr_eq_take : ∀ (buf : List Nat) (n : Nat),
    (∀ i, i < n → ∃ b, buf[i]? = some b ∧ b ≠ 0) → buf[n]? = some 0 →
    cstr buf = buf.take n := by
  intro buf
  induction buf with
  | nil => intro n _ h; simp at h
  | cons b rest ih =>
    intro n hpre hn
    cases n with
    | zero =>
      simp at hn
      simp [cstr, hn]
    | succ n =>
      obtain ⟨b0, hb0, hne⟩ := hpre 0 (by omega)
      simp at hb0
      subst hb0
      have ih2 := ih n (fun i hi => by simpa using hpre (i + 1) (by omega)) (by simpa using hn)
      simp only [cstr] at ih2 ⊢
      simp [List.takeWhile_cons, hne, ih2]

/-- One iteration of the loop: with a 32-byte seed, `c` below 31 and the class letter
at position `c` of the cipher mapped to a non-empty string, the iteration reads seed
byte `c + 1` and computes the character at that byte modulo the size of the string. -/
theorem cipherCharacter_spec (seed T : List Nat) (cc : Option PropObject) (c cls : Nat)
    (chars : List Nat) (hseed : seed.length = 32) (hc : c < 31) (hcls : T[c]? = some cls)
    (hget : prop_dictionary_get cc [cls, 0] = some (.string chars)) (hne : chars ≠ []) :
    ∃ keyByte ch, seed[c + 1]? = some keyByte ∧ chars[keyByte % chars.length]? = some ch ∧
      cipherCharacter seed (some (.string T)) cc c = some ch := by
  have h1 : c + 1 < seed.length := by omega
  have hpos : 0 < chars.length := List.length_pos.mpr hne
  have h2 : seed[c + 1] % chars.length < chars.length := Nat.mod_lt _ hpos
  refine ⟨seed[c + 1], chars[seed[c + 1] % chars.length], ?_, ?_, ?_⟩
  · exact List.getElem?_eq_getElem h1
  · exact List.getElem?_eq_getElem h2
  · have hs : seedByte seed (seedIndex c) = some seed[c + 1] := by
      have h3 : c + 1 < sitePasswordSeedSize := by simp [sitePasswordSeedSize]; omega
      simp [seedByte, seedIndex, h3, List.getElem?_eq_getElem h1]
    have hsz : chars.length ≠ 0 := by omega
    simp [cipherCharacter, hs, prop_string_cstring_nocopy, hcls, hget, prop_string_size, hsz,
      List.getElem?_eq_getElem h2]

/-- C3: for a 32-byte seed, a non-empty list of templates, the template `T` at index
`seed[0] mod len(templates)` of length at most 31, and a catalog that maps every class
letter of `T` to a non-empty string, line 191 selects `T`, the loop returns, the buffer
`sitePassword` holds `len(T)` characters followed by the terminating NUL, and the
character at each position `c` is `chars[seed[c+1] mod len(chars)]` for the string
`chars` of the class letter `T[c]`; when the class strings contain no NUL byte the
printed password is exactly these `len(T)` characters. -/
theorem C3_template_cipher (seed : List Nat) (templates : List (List Nat))
    (characterClasses : Option PropObject) (T : List Nat) (b0 : Nat)
    (hseed : seed.length = 32) (hne : templates ≠ [])
    (hb0 : seed[0]? = some b0)
    (hT : templates[b0 % templates.length]? = some T)
    (hlen : T.length ≤ 31)
    (hcat : ∀ (c cls : Nat), T[c]? = some cls → ∃ chars : List Nat,
      prop_dictionary_get characterClasses [cls, 0] = some (.string chars) ∧ chars ≠ []) :
    selectCipher seed (some (.array (templates.map PropObject.string))) = some (some (.string T)) ∧
    ∃ sitePassword,
      encodePassword seed (some (.string T)) characterClasses = some sitePassword ∧
      sitePassword.length = T.length + 1 ∧
      sitePassword[T.length]? = some 0 ∧
      (∀ (c cls : Nat), T[c]? = some cls → ∃ (chars : List Nat) (keyByte ch : Nat),
        prop_dictionary_get characterClasses [cls, 0] = some (.string chars) ∧
        seed[c + 1]? = some keyByte ∧
        chars[keyByte % chars.length]? = some ch ∧
        sitePassword[c]? = some ch) ∧
      ((∀ (c cls : Nat) (chars : List Nat), T[c]? = some cls →
          prop_dictionary_get characterClasses [cls, 0] = some (.string chars) → 0 ∉ chars) →
        cstr sitePassword = sitePassword.take T.length ∧
        (cstr sitePassword).length = T.length) := by
  have hstep : ∀ (c cls : Nat), T[c]? = some cls → ∃ (chars : List Nat) (keyByte ch : Nat),
      prop_dictionary_get characterClasses [cls, 0] = some (.string chars) ∧
      seed[c + 1]? = some keyByte ∧ chars[keyByte % chars.length]? = some ch ∧
      cipherCharacter seed (some (.string T)) characterClasses c = some ch := by
    intro c cls hcls
    obtain ⟨chars, hget, hcne⟩ := hcat c cls hcls
    have hc : c < T.length := (List.getElem?_eq_some.mp hcls).1
    obtain ⟨k, ch, h1, h2, h3⟩ :=
      cipherCharacter_spec seed T characterClasses c cls chars hseed (by omega) hcls hget hcne
    exact ⟨chars, k, ch, hget, h1, h2, h3⟩
  constructor
  · have hs : seedByte seed 0 = some b0 := by
      simp [seedByte, sitePasswordSeedSize, hb0]
    have hcount : templates.length ≠ 0 := by
      intro h; exact hne (List.length_eq_zero.mp h)
    simp [selectCipher, hs, prop_array_count, prop_array_get, hcount, List.getElem?_map, hT]
  · have hall : ∀ i, 0 ≤ i → i < 0 + T.length →
        ∃ ch, cipherCharacter seed (some (.string T)) characterClasses i = some ch := by
      intro i _ hi
      have hi2 : i < T.length := by omega
      obtain ⟨_, _, ch, _, _, _, h⟩ := hstep i T[i] (List.getElem?_eq_getElem hi2)
      exact ⟨ch, h⟩
    obtain ⟨out, ho, hl, hin, hout⟩ :=
      encodeLoop_spec seed (some (.string T)) characterClasses T.length 0
        (List.replicate (T.length + 1) 0) (by simp) hall
    have hlast : out[T.length]? = some 0 := by
      rw [hout T.length (Or.inr (by omega))]
      simp
    have hpos : ∀ (c cls : Nat), T[c]? = some cls → ∃ (chars : List Nat) (keyByte ch : Nat),
        prop_dictionary_get characterClasses [cls, 0] = some (.string chars) ∧
        seed[c + 1]? = some keyByte ∧ chars[keyByte % chars.length]? = some ch ∧
        out[c]? = some ch := by
      intro c cls hcls
      obtain ⟨chars, k, ch, h1, h2, h3, h4⟩ := hstep c cls hcls
      have hc : c < T.length := (List.getElem?_eq_some.mp hcls).1
      exact ⟨chars, k, ch, h1, h2, h3, by rw [hin c (by omega) (by omega), h4]⟩
    refine ⟨out, ?_, ?_, hlast, hpos, ?_⟩
    · simpa [encodePassword, prop_string_size] using ho
    · simpa using hl
    · intro hnul
      have htake : cstr out = out.take T.length := by
        apply cstr_eq_take out T.length _ hlast
        intro i hi
        obtain ⟨chars, k, ch, h1, _, h3, h4⟩ := hpos i T[i] (List.getElem?_eq_getElem hi)
        refine ⟨ch, h4, ?_⟩
        intro hz
        subst hz
        exact hnul i T[i] chars (List.getElem?_eq_getElem hi) h1 (List.getElem?_mem h3)
      refine ⟨htake, ?_⟩
      rw [htake, List.length_take]
      have : out.length = T.length + 1 := by simpa using hl
      omega

/-- C3 (witness): the example seed selects the third example template `aaannaaa`
(`seed[0] = 5`, `5 mod 3 = 2`), and the cipher returns a buffer of 9 bytes. -/
theorem C3_template_cipher_witness :
    exampleSeed.length = 32 ∧ exampleTemplates ≠ [] ∧
    exampleTemplates[5 % exampleTemplates.length]? = some (ascii "aaannaaa") ∧
    ∃ sitePassword,
      encodePassword exampleSeed (some (.string (ascii "aaannaaa"))) (some exampleCharacterClasses)
        = some sitePassword ∧
      sitePassword.length = 9 := by
  have hcat : ∀ (c cls : Nat), (ascii "aaannaaa")[c]? = some cls → ∃ chars : List Nat,
      prop_dictionary_get (some exampleCharacterClasses) [cls, 0] = some (.string chars) ∧
        chars ≠ [] := by
    intro c cls h
    have hm : cls ∈ ascii "aaannaaa" := List.getElem?_mem h
    have hm2 : cls = 97 ∨ cls = 110 := by
      have : ascii "aaannaaa" = [97, 97, 97, 110, 110, 97, 97, 97] := by decide
      rw [this] at hm
      simp at hm
      omega
    rcases hm2 with h1 | h1
    · subst h1
      exact ⟨ascii "AEIOUaeiouBCDFGHJKLMNPQRSTVWXYZbcdfghjklmnpqrstvwxyz", rfl, by decide⟩
    · subst h1
      exact ⟨ascii "0123456789", rfl, by decide⟩
  obtain ⟨_, pw, h1, h2, _⟩ :=
    C3_template_cipher exampleSeed exampleTemplates (some exampleCharacterClasses)
      (ascii "aaannaaa") 5 (by decide) (by decide) (by decide) (by decide) (by decide) hcat
  exact ⟨by decide, by decide, by decide, pw, h1, h2⟩

/-! ## The program -/

/-- The catalog stage adds no call of `crypto_scrypt` or `HMAC_SHA256_Buf` and leaves
the master password and master key buffers alone. -/
theorem encodeAndPrint_calls (w : World) (t : Option (List Nat)) (acc : Outcome) (seed : List Nat) :
    (encodeAndPrint w t acc seed).scryptCalls = acc.scryptCalls ∧
    (encodeAndPrint w t acc seed).hmacCalls = acc.hmacCalls ∧
    (encodeAndPrint w t acc seed).secrets.masterPassword = acc.secrets.masterPassword ∧
    (encodeAndPrint w t acc seed).secrets.masterKey = acc.secrets.masterKey := by
  unfold encodeAndPrint
  repeat (first | split | simp)

/-- Whatever the libraries do, once a master password has been found the password
buffer still holds it at the return. -/
theorem deriveAndPrint_masterPassword (lib : Libs) (w : World) (userName siteName : List Nat)
    (siteCounter : Nat) (t : Option (List Nat)) (masterPassword : List Nat) :
    (deriveAndPrint lib w userName siteName siteCounter t masterPassword).secrets.masterPassword
      = some masterPassword := by
  unfold deriveAndPrint
  repeat (first | split | simp [encodeAndPrint_calls])

/-- When the environment gives no user name and no `-u` option is read, the option
loop leaves `userName` at `NULL`. -/
theorem readOptions_userName_none : ∀ (l : List GetoptResult) (o o2 : Options),
    o.userName = none → (∀ a, GetoptResult.u a ∉ l) → readOptions l o = .ok o2 →
    o2.userName = none := by
  intro l
  induction l with
  | nil =>
    intro o o2 h _ hr
    simp [readOptions] at hr
    rw [← hr]; exact h
  | cons r rest ih =>
    intro o o2 h hn hr
    have hrest : ∀ a, GetoptResult.u a ∉ rest := fun a hm => hn a (List.mem_cons_of_mem _ hm)
    cases r with
    | u optarg => exact absurd (List.mem_cons_self _ _) (hn optarg)
    | t optarg =>
      exact ih { o with siteTypeString := some optarg } o2 h hrest
        (by simpa [readOptions] using hr)
    | c optarg =>
      exact ih { o with siteCounterString := some optarg } o2 h hrest
        (by simpa [readOptions] using hr)
    | unknown optopt => simp [readOptions] at hr

/-- C4 (the code at the failing input): for the site name `masterpasswordapp.com` the
HMAC message built for counter 1 and the one built for counter 2 are the same byte
string, so changing only the counter does not change the input of the site-seed
derivation; the whole run with `-c 1` and the whole run with `-c 2` end alike, with
the same calls of `HMAC_SHA256_Buf` and the same output. -/
theorem C4_counter_one_and_two_same_message (lib : Libs) :
    sitePasswordInfo (ascii "masterpasswordapp.com") 1
      = sitePasswordInfo (ascii "masterpasswordapp.com") 2 ∧
    sitePasswordInfo (ascii "masterpasswordapp.com") 2
      = some (ascii "com.lyndir.masterpasswordmasterpasswordapp.com") ∧
    main lib (exampleWorld [.u (ascii "user"), .c (ascii "1")]
      (some (ascii "masterpasswordapp.com")) (ascii "user:banana colored duckling\n")
      (some literalKeyCiphers))
      = main lib (exampleWorld [.u (ascii "user"), .c (ascii "2")]
      (some (ascii "masterpasswordapp.com")) (ascii "user:banana colored duckling\n")
      (some literalKeyCiphers)) := by
  have h1 : siteCounterOf (some (ascii "1")) = 1 := by decide
  have h2 : siteCounterOf (some (ascii "2")) = 2 := by decide
  have h3 : sitePasswordInfo (ascii "masterpasswordapp.com") 1
      = some (ascii "com.lyndir.masterpasswordmasterpasswordapp.com") := by decide
  have h4 : sitePasswordInfo (ascii "masterpasswordapp.com") 2
      = some (ascii "com.lyndir.masterpasswordmasterpasswordapp.com") := by decide
  refine ⟨by rw [h3, h4], h4, ?_⟩
  simp only [main, exampleWorld, readOptions, deriveAndPrint, encodeAndPrint, h1, h2, h3, h4]
  rfl

/-- C5 (the code at the failing input): line 186 looks up the two literal keys
`[self classNameOfType:type]` and `[self nameOfType:type]`, never the type tag.  With
the example catalog, which has entries for `Long` and `PIN`, the catalog stage fails
for every type tag, `Long` and `PIN` included, so that every run of `main` with that
catalog returns 1; with a catalog that has a list under the two literal keys, every
type tag, also one without any entry, is served from that one list and gives the same
result as no tag at all. -/
theorem C5_type_tag_not_used (lib : Libs) (siteTypeString : List Nat) (acc : Outcome)
    (sitePasswordSeed : List Nat) :
    (encodeAndPrint (exampleWorld [] none [] (some exampleCiphers)) (some siteTypeString) acc
        sitePasswordSeed).status = .exit 1 ∧
    (encodeAndPrint (exampleWorld [] none [] (some exampleCiphers)) (some siteTypeString) acc
        sitePasswordSeed).stderr = [.noCipherForType (some siteTypeString)] ∧
    (main lib (exampleWorld [.u (ascii "user"), .t siteTypeString]
      (some (ascii "masterpasswordapp.com")) (ascii "user:banana colored duckling\n")
      (some exampleCiphers))).status = .exit 1 ∧
    encodeAndPrint (exampleWorld [] none [] (some literalKeyCiphers)) (some siteTypeString) acc
        sitePasswordSeed
      = encodeAndPrint (exampleWorld [] none [] (some literalKeyCiphers)) none acc
        sitePasswordSeed := by
  refine ⟨rfl, rfl, ?_, rfl⟩
  have h2 : readMasterPassword (ascii "user") (fileLines (ascii "user:banana colored duckling\n"))
      = some (ascii "banana colored duckling\n") := by decide
  have h3 : masterKeySalt (ascii "user") = some (ascii "com.lyndir.masterpassworduser") := by
    decide
  have h4 : sitePasswordInfo (ascii "masterpasswordapp.com") 1
      = some (ascii "com.lyndir.masterpasswordmasterpasswordapp.com") := by decide
  have h5 : cstr (ascii "banana colored duckling\n") = ascii "banana colored duckling\n" := by
    decide
  simp only [main, exampleWorld, readOptions, deriveAndPrint, siteCounterOf, h2, h3, h4, h5]
  cases lib.crypto_scrypt (ascii "banana colored duckling\n")
    (ascii "com.lyndir.masterpassworduser") with
  | none => simp
  | some masterKey => rfl

/-- C6 (counterexample): with `-u ""`, the site name `""` and a configuration file
whose first line is `:banana colored duckling`, no library makes the program both
return 1 and leave scrypt uncalled: the empty names pass validation and
`crypto_scrypt` is called. -/
theorem C6_counterexample_empty_names :
    ¬ ∃ lib : Libs,
      (main lib (exampleWorld [.u []] (some []) (ascii ":banana colored duckling\n")
        (some exampleCiphers))).status = .exit 1 ∧
      (main lib (exampleWorld [.u []] (some []) (ascii ":banana colored duckling\n")
        (some exampleCiphers))).scryptCalls = [] := by
  rintro ⟨lib, _, h⟩
  have h2 : readMasterPassword [] (fileLines (ascii ":banana colored duckling\n"))
      = some (ascii "banana colored duckling\n") := by decide
  have h3 : masterKeySalt [] = some scope := by decide
  have h4 : sitePasswordInfo [] 1 = some scope := by decide
  have h5 : cstr (ascii "banana colored duckling\n") = ascii "banana colored duckling\n" := by
    decide
  simp only [main, exampleWorld, readOptions, deriveAndPrint, siteCounterOf, h2, h3, h4, h5] at h
  cases hs : lib.crypto_scrypt (ascii "banana colored duckling\n") scope <;>
    simp [hs, encodeAndPrint_calls] at h

/-- C6 (amended): when no user name is given (the environment has none and no `-u`
option is read) or no site name argument is given, `main` returns 1 and neither
`crypto_scrypt` nor `HMAC_SHA256_Buf` has been called. -/
theorem C6_missing_names_rejected (lib : Libs) (w : World)
    (h : (w.env_username = none ∧ ∀ a, GetoptResult.u a ∉ w.getopt) ∨ w.positional = none) :
    (main lib w).status = .exit 1 ∧ (main lib w).scryptCalls = [] ∧
      (main lib w).hmacCalls = [] := by
  unfold main
  split
  · simp
  · rename_i o hr
    split
    · simp
    · rename_i userName hu
      split
      · simp
      · rename_i siteName hp
        exfalso
        rcases h with ⟨h1, h2⟩ | h3
        · have := readOptions_userName_none w.getopt _ o h1 h2 hr
          rw [hu] at this
          exact Option.noConfusion this
        · rw [hp] at h3
          exact Option.noConfusion h3

/-- C6 (amended, witness): an invocation with a site name but no user name. -/
theorem C6_missing_names_rejected_witness :
    (main ⟨fun _ _ => none, fun _ _ => []⟩
      (exampleWorld [] (some (ascii "masterpasswordapp.com")) [] none)).status = .exit 1 ∧
    (main ⟨fun _ _ => none, fun _ _ => []⟩
      (exampleWorld [] (some (ascii "masterpasswordapp.com")) [] none)).scryptCalls = [] ∧
    (main ⟨fun _ _ => none, fun _ _ => []⟩
      (exampleWorld [] (some (ascii "masterpasswordapp.com")) [] none)).hmacCalls = [] :=
  C6_missing_names_rejected _ _ (Or.inl ⟨rfl, fun _ hm => by cases hm⟩)

/-- C7 (the code at the failing input): the counter argument `-1` parses to the
integer -1, is stored in the `uint32_t` as 4294967295, passes the test
`siteCounter < 1`, and `crypto_scrypt` is called; the four counter bytes FF FF FF FF
have no NUL, so building the HMAC message is undefined. -/
theorem C7_negative_counter_accepted (lib : Libs) :
    atoi (ascii "-1") = -1 ∧
    siteCounterOf (some (ascii "-1")) = 4294967295 ∧
    (main lib (exampleWorld [.u (ascii "user"), .c (ascii "-1")]
      (some (ascii "masterpasswordapp.com")) (ascii "user:banana colored duckling\n")
      (some exampleCiphers))).scryptCalls
      = [(ascii "banana colored duckling\n", ascii "com.lyndir.masterpassworduser")] ∧
    sitePasswordInfo (ascii "masterpasswordapp.com") 4294967295 = none := by
  have h1 : siteCounterOf (some (ascii "-1")) = 4294967295 := by decide
  have h2 : readMasterPassword (ascii "user") (fileLines (ascii "user:banana colored duckling\n"))
      = some (ascii "banana colored duckling\n") := by decide
  have h3 : masterKeySalt (ascii "user") = some (ascii "com.lyndir.masterpassworduser") := by
    decide
  have h4 : sitePasswordInfo (ascii "masterpasswordapp.com") 4294967295 = none := by decide
  have h5 : cstr (ascii "banana colored duckling\n") = ascii "banana colored duckling\n" := by
    decide
  refine ⟨by decide, h1, ?_, h4⟩
  simp only [main, exampleWorld, readOptions, deriveAndPrint, h1, h2, h3, h4, h5]
  cases lib.crypto_scrypt (ascii "banana colored duckling\n")
    (ascii "com.lyndir.masterpassworduser") <;> simp

/-- C8 (the code at the failing input): with the configuration file
`user:banana colored duckling` (one newline-terminated line) and the user name `user`,
`masterPassword` is the rest of the line with its newline, and these 24 bytes, not the
23 bytes of the field, are the password handed to `crypto_scrypt`. -/
theorem C8_master_password_keeps_newline (lib : Libs) :
    readMasterPassword (ascii "user") (fileLines (ascii "user:banana colored duckling\n"))
      = some (ascii "banana colored duckling" ++ [10]) ∧
    (main lib (exampleWorld [.u (ascii "user")]
      (some (ascii "masterpasswordapp.com")) (ascii "user:banana colored duckling\n")
      (some exampleCiphers))).scryptCalls
      = [(ascii "banana colored duckling" ++ [10], ascii "com.lyndir.masterpassworduser")] := by
  have h2 : readMasterPassword (ascii "user") (fileLines (ascii "user:banana colored duckling\n"))
      = some (ascii "banana colored duckling" ++ [10]) := by decide
  have h3 : masterKeySalt (ascii "user") = some (ascii "com.lyndir.masterpassworduser") := by
    decide
  have h4 : sitePasswordInfo (ascii "masterpasswordapp.com") 1
      = some (ascii "com.lyndir.masterpasswordmasterpasswordapp.com") := by decide
  have h5 : cstr (ascii "banana colored duckling" ++ [10]) = ascii "banana colored duckling" ++ [10] := by
    decide
  refine ⟨h2, ?_⟩
  simp only [main, exampleWorld, readOptions, deriveAndPrint, siteCounterOf, h2, h3, h4, h5]
  cases lib.crypto_scrypt (ascii "banana colored duckling" ++ [10])
    (ascii "com.lyndir.masterpassworduser") <;> simp [encodeAndPrint_calls]

/-- C9 (counterexample): for a template of length 32 the loop reads seed index 32 in
its last iteration, which is not inside the 32-byte seed; evaluated on a seed of 32
bytes and the template of 32 letters `n`, that iteration and the whole loop are
undefined. -/
theorem C9_counterexample_length_32 :
    32 ∈ seedReads 32 ∧ ¬ (32 < sitePasswordSeedSize) ∧
    seedIndex 31 = 32 ∧
    cipherCharacter exampleSeed (some (.string (List.replicate 32 110)))
      (some exampleCharacterClasses) 31 = none ∧
    encodePassword exampleSeed (some (.string (List.replicate 32 110)))
      (some exampleCharacterClasses) = none := by
  refine ⟨by decide, by decide, rfl, rfl, rfl⟩

/-- C9 (amended): for every template of length at most 31 (so for every length from
1 to 31), every seed index the cipher reads, index 0 and index `c + 1` for each
position `c`, is below 32, and the read of a 32-byte seed at that index is defined. -/
theorem C9_seed_reads_in_bounds (cipherSize : Nat) (h : cipherSize ≤ 31) :
    ∀ i ∈ seedReads cipherSize, i < sitePasswordSeedSize ∧
      ∀ seed : List Nat, seed.length = 32 → (seedByte seed i).isSome = true := by
  intro i hi
  have hlt : i < 32 := by
    simp only [seedReads, seedIndex, List.mem_cons, List.mem_map, List.mem_range] at hi
    rcases hi with h0 | ⟨c, hc, rfl⟩ <;> omega
  refine ⟨hlt, ?_⟩
  intro seed hs
  have : i < seed.length := by omega
  simp [seedByte, sitePasswordSeedSize, hlt, List.getElem?_eq_getElem this]

/-- C9 (amended, witness): for the template length 31 the last index read is 31; it
is inside the seed and the read of the example seed there is defined. -/
theorem C9_seed_reads_in_bounds_witness :
    31 ≤ 31 ∧ 31 ∈ seedReads 31 ∧ 31 < sitePasswordSeedSize ∧
      (seedByte exampleSeed 31).isSome = true :=
  ⟨by decide, by decide,
    (C9_seed_reads_in_bounds 31 (by decide) 31 (by decide)).1,
    (C9_seed_reads_in_bounds 31 (by decide) 31 (by decide)).2 exampleSeed (by decide)⟩

/-- C10 (the code at the failing input): with the configuration file
`user:banana colored duckling` and an unreadable catalog, at the return the master
password buffer still holds the password, and when scrypt has succeeded the seed
buffer still holds the HMAC digest (the master key has been zeroed); `main` returns on
line 184 before the `memset` of line 213.  With a readable catalog the master password
buffer still holds the password at the return as well. -/
theorem C10_secrets_left_at_return (lib : Libs) :
    (main lib (exampleWorld [.u (ascii "user")]
      (some (ascii "masterpasswordapp.com")) (ascii "user:banana colored duckling\n")
      none)).secrets.masterPassword = some (ascii "banana colored duckling\n") ∧
    (main lib (exampleWorld [.u (ascii "user")]
      (some (ascii "masterpasswordapp.com")) (ascii "user:banana colored duckling\n")
      none)).secrets.sitePasswordSeed
      = (lib.crypto_scrypt (ascii "banana colored duckling\n")
          (ascii "com.lyndir.masterpassworduser")).map
        (fun masterKey => lib.HMAC_SHA256_Buf (masterKey.take MP_dkLen)
          (ascii "com.lyndir.masterpasswordmasterpasswordapp.com")) ∧
    (main lib (exampleWorld [.u (ascii "user")]
      (some (ascii "masterpasswordapp.com")) (ascii "user:banana colored duckling\n")
      none)).stderr
      = (match lib.crypto_scrypt (ascii "banana colored duckling\n")
          (ascii "com.lyndir.masterpassworduser") with
        | none => [Diag.scryptFailed]
        | some _ => [Diag.cannotReadCiphers]) ∧
    (main lib (exampleWorld [.u (ascii "user")]
      (some (ascii "masterpasswordapp.com")) (ascii "user:banana colored duckling\n")
      (some literalKeyCiphers))).secrets.masterPassword
      = some (ascii "banana colored duckling\n") := by
  have h2 : readMasterPassword (ascii "user") (fileLines (ascii "user:banana colored duckling\n"))
      = some (ascii "banana colored duckling\n") := by decide
  have h3 : masterKeySalt (ascii "user") = some (ascii "com.lyndir.masterpassworduser") := by
    decide
  have h4 : sitePasswordInfo (ascii "masterpasswordapp.com") 1
      = some (ascii "com.lyndir.masterpasswordmasterpasswordapp.com") := by decide
  have h5 : cstr (ascii "banana colored duckling\n") = ascii "banana colored duckling\n" := by
    decide
  refine ⟨?_, ?_, ?_, ?_⟩
  · simp only [main, exampleWorld, readOptions, deriveAndPrint, siteCounterOf, h2, h3, h4, h5]
    cases lib.crypto_scrypt (ascii "banana colored duckling\n")
      (ascii "com.lyndir.masterpassworduser") <;> simp [encodeAndPrint]
  · simp only [main, exampleWorld, readOptions, deriveAndPrint, siteCounterOf, h2, h3, h4, h5]
    cases lib.crypto_scrypt (ascii "banana colored duckling\n")
      (ascii "com.lyndir.masterpassworduser") <;> simp [encodeAndPrint]
  · simp only [main, exampleWorld, readOptions, deriveAndPrint, siteCounterOf, h2, h3, h4, h5]
    cases lib.crypto_scrypt (ascii "banana colored duckling\n")
      (ascii "com.lyndir.masterpassworduser") <;> simp [encodeAndPrint]
  · simp only [main, exampleWorld, readOptions, siteCounterOf, h2]
    rw [if_neg (by decide)]
    exact deriveAndPrint_masterPassword _ _ _ _ _ _ _

end MPW
